import Mathlib

/-!
Verification of the crime-dashboard core pipeline (`app.py`) and the data
generator (`gen_crime_data.py`): data loading, filtering, aggregation,
monthly grouping and the per-district linear forecast.

Dates are modelled at day granularity (the app compares `df["Date"].dt.date`).
A dataset is a list of incident records; pandas boolean-mask filtering is
`List.filter`; `groupby(pd.Grouper(key="Date", freq="ME")).size()` is
resampling by calendar month: one bin per month from the earliest to the
latest observed month, empty months included with count 0.
-/

/-- A calendar date at day granularity (time-of-day is stripped by
`df["Date"].dt.date` before any comparison in the app). -/
structure Date where
  year : Nat
  month : Nat
  day : Nat
deriving DecidableEq, Repr

/-- Day-granularity date order: lexicographic on (year, month, day).
This is the comparison behind `df["Date"].dt.date.between(start, end)`. -/
def dateLe (d e : Date) : Bool :=
  (d.year < e.year) ||
  (d.year == e.year && (d.month < e.month ||
    (d.month == e.month && d.day ≤ e.day)))

/-- One incident record: one row of the dataframe with its five columns. -/
structure Record where
  date : Date
  crime_type : String
  district : String
  latitude : Rat
  longitude : Rat
deriving DecidableEq, Repr

/-- Sidebar filter criteria: start/end date pickers, category selectbox
(`"All"` sentinel plus concrete categories), district multiselect. -/
structure Criteria where
  start : Date
  stop : Date
  category : String
  districts : List String
deriving Repr

/-- The boolean mask of `app.py`:
`df["Date"].dt.date.between(start, end) & df["District"].isin(districts)`,
then `mask &= df["Crime_Type"] == category` when `category != "All"`. -/
def mask (c : Criteria) (r : Record) : Bool :=
  let base := (dateLe c.start r.date && dateLe r.date c.stop)
      && c.districts.contains r.district
  if c.category != "All" then base && (r.crime_type == c.category) else base

/-- `filtered = df[mask]`: the rows of the dataset passing the mask. -/
def filterData (d : List Record) (c : Criteria) : List Record :=
  d.filter (mask c)

/-- Integer encoding of a calendar month, `year*12 + month`; this is both
the bin key of the month-end grouper and the `Mnum` regressor column
(`hist["Date"].dt.year*12 + hist["Date"].dt.month`). -/
def monthIndex (d : Date) : Nat := d.year * 12 + d.month

/-- The month indices of all rows of a dataframe. -/
def monthIdxs (rows : List Record) : List Nat :=
  rows.map (fun r => monthIndex r.date)

/-- Number of rows falling in calendar month `m`: the size of the
month-end grouper's bin labelled by month `m`. -/
def countInMonth (rows : List Record) (m : Nat) : Nat :=
  (rows.filter (fun r => monthIndex r.date == m)).length

/-- Earliest observed month index (0 on an empty frame, unused there). -/
def minMonth (rows : List Record) : Nat :=
  match monthIdxs rows with
  | [] => 0
  | x :: xs => xs.foldl min x

/-- Latest observed month index (0 on an empty frame, unused there). -/
def maxMonth (rows : List Record) : Nat :=
  match monthIdxs rows with
  | [] => 0
  | x :: xs => xs.foldl max x

/-- `groupby(pd.Grouper(key="Date", freq="ME")).size()`: resampling by
calendar month.  The bins run over every calendar month from the earliest
to the latest observed month inclusive — months with no rows get a bin of
size 0 — and the result is keyed by month in chronological order.  Empty
input yields an empty series. -/
def monthlySeries (rows : List Record) : List (Nat × Nat) :=
  match monthIdxs rows with
  | [] => []
  | _ :: _ =>
    (List.range (maxMonth rows + 1 - minMonth rows)).map
      (fun i => (minMonth rows + i, countInMonth rows (minMonth rows + i)))

/-- `filtered["Crime_Type"].value_counts()`: one entry per distinct crime
type present, with its number of occurrences. -/
def categoryBreakdown (rows : List Record) : List (String × Nat) :=
  ((rows.map Record.crime_type).dedup).map
    (fun c => (c, (rows.map Record.crime_type).count c))

/-- `filtered.groupby("District").size()`: one entry per distinct district
present, with its number of rows. -/
def districtBreakdown (rows : List Record) : List (String × Nat) :=
  ((rows.map Record.district).dedup).map
    (fun c => (c, (rows.map Record.district).count c))

/-- The metrics and grouped summaries the dashboard derives from the
filtered frame: `tot`, `ucat`, `dud` and the three chart series. -/
structure AggregateResult where
  total_count : Nat
  distinct_category_count : Nat
  distinct_district_count : Nat
  monthly : List (Nat × Nat)
  byCategory : List (String × Nat)
  byDistrict : List (String × Nat)
deriving DecidableEq, Repr

/-- The aggregation step of the app: `tot = len(filtered)`,
`ucat = filtered["Crime_Type"].nunique()`, `dud = filtered["District"].nunique()`,
plus the monthly, per-category and per-district groupings feeding the
three charts. -/
def aggregate (rows : List Record) : AggregateResult where
  total_count := rows.length
  distinct_category_count := (rows.map Record.crime_type).dedup.length
  distinct_district_count := (rows.map Record.district).dedup.length
  monthly := monthlySeries rows
  byCategory := categoryBreakdown rows
  byDistrict := districtBreakdown rows

/-- `df[df["District"] == pdist]`: the full dataset restricted to the
forecast district. -/
def districtRows (d : List Record) (dist : String) : List Record :=
  d.filter (fun r => r.district == dist)

/-- `hist = df[df["District"]==pdist].groupby(pd.Grouper(key="Date",freq="ME")).size()`:
the district rows resampled by calendar month. -/
def histSeries (d : List Record) (dist : String) : List (Nat × Nat) :=
  monthlySeries (districtRows d dist)

/-- Slope of the ordinary-least-squares line of count against month index
(`LinearRegression().fit(hist[["Mnum"]], hist["Count"])`), in exact
rational arithmetic. -/
def olsSlope (pts : List (Nat × Nat)) : Rat :=
  let n : Rat := pts.length
  let sx : Rat := (pts.map (fun p => (p.1 : Rat))).sum
  let sy : Rat := (pts.map (fun p => (p.2 : Rat))).sum
  let sxy : Rat := (pts.map (fun p => (p.1 : Rat) * (p.2 : Rat))).sum
  let sxx : Rat := (pts.map (fun p => (p.1 : Rat) * (p.1 : Rat))).sum
  (n * sxy - sx * sy) / (n * sxx - sx * sx)

/-- Intercept of the ordinary-least-squares line. -/
def olsIntercept (pts : List (Nat × Nat)) : Rat :=
  let n : Rat := pts.length
  let sx : Rat := (pts.map (fun p => (p.1 : Rat))).sum
  let sy : Rat := (pts.map (fun p => (p.2 : Rat))).sum
  (sy - olsSlope pts * sx) / n

/-- `model.predict([[x]])[0]`: the fitted line evaluated at `x`. -/
def olsPredict (pts : List (Nat × Nat)) (x : Rat) : Rat :=
  olsIntercept pts + olsSlope pts * x

/-- `df["Date"].max()`: the latest date of the whole dataset at day
granularity (dummy on an empty frame, never used there). -/
def maxDate (d : List Record) : Date :=
  match d with
  | [] => ⟨0, 0, 0⟩
  | r :: rs => rs.foldl (fun a b => if dateLe a b.date then b.date else a) r.date

/-- `nm = df["Date"].max().year*12 + df["Date"].max().month + 1`: the month
index one past the latest month of the *entire* dataset. -/
def nextMonth (d : List Record) : Nat := monthIndex (maxDate d) + 1

/-- Outcome of the forecast panel: either a predicted next-month count or
the defined no-prediction state (the `len(hist) > 1` guard failing). -/
inductive ForecastResult where
  | unavailable
  | predicted (value : Rat)
deriving DecidableEq, Repr

/-- The forecasting block: resample the chosen district by month; if more
than one bin exists, fit count against `Mnum` by least squares and predict
at the global next month `nm`; otherwise produce no prediction. -/
def forecast (d : List Record) (dist : String) : ForecastResult :=
  let h := histSeries d dist
  if 1 < h.length then
    ForecastResult.predicted (olsPredict h ((nextMonth d : Nat) : Rat))
  else ForecastResult.unavailable

/- ### Generator (`gen_crime_data.py`) -/

def START_DATE : Date := ⟨2025, 1, 1⟩

def END_DATE : Date := ⟨2025, 5, 20⟩

def CRIME_TYPES : List String :=
  ["Theft", "Assault", "Burglary", "Robbery",
   "Vandalism", "Drug Offense", "Fraud"]

def DISTRICTS : List String :=
  ["Harare", "Bulawayo", "Mutare", "Gweru",
   "Chitungwiza", "Kadoma", "Marondera", "Masvingo"]

def LAT_MIN : Rat := -22
def LAT_MAX : Rat := -15
def LON_MIN : Rat := 25
def LON_MAX : Rat := 34

/-- Lengths of the twelve months of 2025 (not a leap year); the
generator's date range lies inside this single year. -/
def monthLengths2025 : List Nat := [31, 28, 31, 30, 31, 30, 31, 31, 30, 31, 30, 31]

/-- 0-based day-of-year of a 2025 date, used to evaluate
`timedelta` arithmetic on dates of the generator's range. -/
def dayOfYear2025 (d : Date) : Nat :=
  (monthLengths2025.take (d.month - 1)).sum + (d.day - 1)

/-- `(END_DATE - START_DATE).days` of the generator configuration. -/
def deltaDays : Nat := dayOfYear2025 END_DATE - dayOfYear2025 START_DATE

/-- Walks the month-length table to turn a 0-based day offset into a
calendar date of 2025: `dateFromOffset 1 k monthLengths2025` is
`START_DATE + timedelta(days=k)`. -/
def dateFromOffset (m k : Nat) : List Nat → Date
  | [] => ⟨2025, m, k + 1⟩
  | len :: rest => if k < len then ⟨2025, m, k + 1⟩ else dateFromOffset (m + 1) (k - len) rest

/-- `random_date(START_DATE, END_DATE)` where the draw
`np.random.randint(0, delta.days + 1)` returned `k`: the generator's
random date is `start + timedelta(days=k)`. -/
def random_date (k : Nat) : Date := dateFromOffset 1 k monthLengths2025

/-- `np.round(x)` to the nearest integer, ties to even (numpy rounding). -/
def roundHalfEven (x : Rat) : Int :=
  let f := ⌊x⌋
  let frac := x - (f : Rat)
  if frac < 1/2 then f
  else if 1/2 < frac then f + 1
  else if f % 2 = 0 then f else f + 1

/-- `np.round(x, 6)`: round to six decimal places, ties to even. -/
def npRound6 (x : Rat) : Rat := (roundHalfEven (x * 1000000) : Rat) / 1000000

/-- One iteration's random draws: the day offset from
`np.random.randint(0, delta.days + 1)`, the index of the
`np.random.choice` pick from each label list, and the raw
`np.random.uniform` coordinates before rounding. -/
structure Draws where
  dayOffset : Nat
  crimeIdx : Nat
  districtIdx : Nat
  latRaw : Rat
  lonRaw : Rat

/-- The record appended by one loop iteration of the generator, given the
iteration's random draws. -/
def genRecord (w : Draws) : Record where
  date := random_date w.dayOffset
  crime_type := CRIME_TYPES.getD (w.crimeIdx % CRIME_TYPES.length) ""
  district := DISTRICTS.getD (w.districtIdx % DISTRICTS.length) ""
  latitude := npRound6 w.latRaw
  longitude := npRound6 w.lonRaw

/-- One line of the generated CSV: the five columns the generator writes,
the date serialized by `strftime("%Y-%m-%d")`. -/
structure CsvRow where
  dateCol : String
  crimeTypeCol : String
  latitudeCol : Rat
  longitudeCol : Rat
  districtCol : String
deriving DecidableEq, Repr

/-- Zero-padding to two digits, as in `%m` / `%d`. -/
def pad2 (n : Nat) : String := if n < 10 then "0" ++ toString n else toString n

/-- `strftime("%Y-%m-%d")` on a date of the generator's range. -/
def strftimeYMD (d : Date) : String :=
  toString d.year ++ "-" ++ pad2 d.month ++ "-" ++ pad2 d.day

/-- The CSV row the generator writes for one iteration's draws. -/
def genRow (w : Draws) : CsvRow where
  dateCol := strftimeYMD (random_date w.dayOffset)
  crimeTypeCol := (genRecord w).crime_type
  latitudeCol := (genRecord w).latitude
  longitudeCol := (genRecord w).longitude
  districtCol := (genRecord w).district

/-- Split a character list on the `-` separator, the field decomposition
of a `%Y-%m-%d` string. -/
def splitDash : List Char → List (List Char)
  | [] => [[]]
  | c :: cs =>
    match splitDash cs with
    | [] => [[c]]
    | g :: gs => if c = '-' then [] :: g :: gs else (c :: g) :: gs

/-- Numeric value of a decimal digit character, `none` on a non-digit. -/
def digitVal (c : Char) : Option Nat :=
  if 48 ≤ c.toNat ∧ c.toNat ≤ 57 then some (c.toNat - 48) else none

/-- Parse a non-empty all-digit character list as a decimal number. -/
def digitsToNat (cs : List Char) : Option Nat :=
  match cs with
  | [] => none
  | _ =>
    cs.foldl (fun acc c => acc.bind fun n => (digitVal c).map fun d => n * 10 + d)
      (some 0)

/-- `%Y-%m-%d` date parsing, the work `parse_dates=["Date"]` does per row. -/
def parseDateYMD (s : String) : Option Date :=
  match splitDash s.data with
  | [y, m, d] =>
    match digitsToNat y, digitsToNat m, digitsToNat d with
    | some yv, some mv, some dv => some ⟨yv, mv, dv⟩
    | _, _, _ => none
  | _ => none

/-- Parsing one CSV row into a record; `none` when the date column does
not parse (`pd.read_csv(..., parse_dates=["Date"])` raising). -/
def parseRow (row : CsvRow) : Option Record :=
  match parseDateYMD row.dateCol with
  | some d => some ⟨d, row.crimeTypeCol, row.districtCol, row.latitudeCol, row.longitudeCol⟩
  | none => none

/-- `pd.read_csv(path, parse_dates=["Date"])` over in-memory rows: parses
every row, fails if any row fails, drops nothing. -/
def readCsvRows (rows : List CsvRow) : Option (List Record) :=
  rows.mapM parseRow

/- ### Load-or-fallback plumbing (`upload_csv` / `load_data`) -/

/-- `upload_csv()`: when a file is uploaded, try to read it, returning the
dataframe on success and `None` after reporting the error on failure; when
no file is uploaded, return `None`.  `read_csv` stands for
`pd.read_csv(uploaded_file, parse_dates=["Date"])`, which either yields a
dataframe or raises. -/
def upload_csv {α : Type} (read_csv : α → Except String (List Record))
    (uploaded : Option α) : Option (List Record) :=
  match uploaded with
  | none => none
  | some f =>
    match read_csv f with
    | Except.ok df => some df
    | Except.error _ => none

/-- `load_data(path="crime_data.csv")`: read the fixed default path. -/
def load_data (read_path : String → Except String (List Record)) :
    Except String (List Record) :=
  read_path "crime_data.csv"

/-- The session's dataframe choice: `df = uploaded_df` when `upload_csv`
returned one, otherwise `df = load_data()`. -/
def sessionData {α : Type} (read_csv : α → Except String (List Record))
    (read_path : String → Except String (List Record))
    (uploaded : Option α) : Except String (List Record) :=
  match upload_csv read_csv uploaded with
  | some df => Except.ok df
  | none => load_data read_path

/- ### Concrete example datasets used by the theorems below -/

/-- Two records in the same district, one in January 2025 and one in March
2025, with no February record: the smallest dataset showing how the
month-end grouper treats a gap month. -/
def gapRows : List Record :=
  [⟨⟨2025, 1, 10⟩, "Theft", "Harare", 0, 0⟩,
   ⟨⟨2025, 3, 5⟩, "Fraud", "Harare", 0, 0⟩]

/-- A dataset where district `"A"` has data in January and February 2025
only, while district `"B"` has the dataset's latest record in April 2025:
district `"A"`'s own latest month (February) differs from the dataset's
global latest month (April). -/
def splitAnchorRows : List Record :=
  [⟨⟨2025, 1, 3⟩, "Theft", "A", 0, 0⟩,
   ⟨⟨2025, 2, 4⟩, "Theft", "A", 0, 0⟩,
   ⟨⟨2025, 2, 9⟩, "Fraud", "A", 0, 0⟩,
   ⟨⟨2025, 4, 7⟩, "Theft", "B", 0, 0⟩]

/-- A single-district dataset whose monthly counts form the arithmetic
progression `a`, `a + b`, `a + 2*b` over the three consecutive months
January–March of year `y`: a perfectly linear monthly trend. -/
def linRows (y a b : Nat) : List Record :=
  List.replicate a ⟨⟨y, 1, 1⟩, "Theft", "Harare", 0, 0⟩ ++
  List.replicate (a + b) ⟨⟨y, 2, 1⟩, "Theft", "Harare", 0, 0⟩ ++
  List.replicate (a + 2 * b) ⟨⟨y, 3, 1⟩, "Theft", "Harare", 0, 0⟩

/- ### Helper lemmas -/

theorem dateLe_refl (d : Date) : dateLe d d = true := by
  simp [dateLe]

theorem foldl_min_le_init (xs : List Nat) (x : Nat) : xs.foldl min x ≤ x := by
  induction xs generalizing x with
  | nil => simp
  | cons y ys ih =>
    simp only [List.foldl_cons]
    exact le_trans (ih (min x y)) (min_le_left x y)

theorem foldl_min_le_mem (xs : List Nat) (x a : Nat) (h : a ∈ xs) :
    xs.foldl min x ≤ a := by
  induction xs generalizing x with
  | nil => cases h
  | cons y ys ih =>
    simp only [List.foldl_cons]
    rcases List.mem_cons.1 h with rfl | h'
    · exact le_trans (foldl_min_le_init ys (min x a)) (min_le_right x a)
    · exact ih (min x y) h'

theorem le_foldl_max_init (xs : List Nat) (x : Nat) : x ≤ xs.foldl max x := by
  induction xs generalizing x with
  | nil => simp
  | cons y ys ih =>
    simp only [List.foldl_cons]
    exact le_trans (le_max_left x y) (ih (max x y))

theorem le_foldl_max_mem (xs : List Nat) (x a : Nat) (h : a ∈ xs) :
    a ≤ xs.foldl max x := by
  induction xs generalizing x with
  | nil => cases h
  | cons y ys ih =>
    simp only [List.foldl_cons]
    rcases List.mem_cons.1 h with rfl | h'
    · exact le_trans (le_max_right x a) (le_foldl_max_init ys (max x a))
    · exact ih (max x y) h'

theorem le_foldl_min (xs : List Nat) (x m : Nat) (hx : m ≤ x)
    (h : ∀ a ∈ xs, m ≤ a) : m ≤ xs.foldl min x := by
  induction xs generalizing x with
  | nil => simpa using hx
  | cons y ys ih =>
    simp only [List.foldl_cons]
    exact ih (min x y) (le_min hx (h y (List.mem_cons_self y ys)))
      (fun a ha => h a (List.mem_cons_of_mem y ha))

theorem foldl_max_le (xs : List Nat) (x m : Nat) (hx : x ≤ m)
    (h : ∀ a ∈ xs, a ≤ m) : xs.foldl max x ≤ m := by
  induction xs generalizing x with
  | nil => simpa using hx
  | cons y ys ih =>
    simp only [List.foldl_cons]
    exact ih (max x y) (max_le hx (h y (List.mem_cons_self y ys)))
      (fun a ha => h a (List.mem_cons_of_mem y ha))

theorem minMonth_le_of_mem (rows : List Record) (a : Nat)
    (h : a ∈ monthIdxs rows) : minMonth rows ≤ a := by
  cases hm : monthIdxs rows with
  | nil => rw [hm] at h; cases h
  | cons x xs =>
    rw [hm] at h
    simp only [minMonth, hm]
    rcases List.mem_cons.1 h with rfl | h'
    · exact foldl_min_le_init xs a
    · exact foldl_min_le_mem xs x a h'

theorem le_maxMonth_of_mem (rows : List Record) (a : Nat)
    (h : a ∈ monthIdxs rows) : a ≤ maxMonth rows := by
  cases hm : monthIdxs rows with
  | nil => rw [hm] at h; cases h
  | cons x xs =>
    rw [hm] at h
    simp only [maxMonth, hm]
    rcases List.mem_cons.1 h with rfl | h'
    · exact le_foldl_max_init xs a
    · exact le_foldl_max_mem xs x a h'

/- ### C1: filter semantics -/

/-- **C1.** A record is in `filterData d c` iff it is a record of `d` whose
date lies between the start and end dates inclusive (day granularity), whose
district is among the selected districts, and whose crime type matches the
selected category unless the category is the `"All"` sentinel.  In
particular no record outside `d` appears in the result. -/
theorem mem_filterData_iff (d : List Record) (c : Criteria) (r : Record) :
    r ∈ filterData d c ↔
      r ∈ d ∧ dateLe c.start r.date = true ∧ dateLe r.date c.stop = true ∧
        r.district ∈ c.districts ∧
        (c.category = "All" ∨ r.crime_type = c.category) := by
  unfold filterData mask
  rw [List.mem_filter]
  by_cases hc : c.category = "All"
  · simp [hc, List.contains, List.elem_iff, and_assoc]
  · simp only [ne_eq, hc, not_false_iff, bne_iff_ne, if_pos, Bool.and_eq_true,
      beq_iff_eq, List.contains, List.elem_iff]
    constructor
    · rintro ⟨hd, ⟨⟨⟨h1, h2⟩, h3⟩, h4⟩⟩
      exact ⟨hd, h1, h2, h3, Or.inr h4⟩
    · rintro ⟨hd, h1, h2, h3, h4⟩
      rcases h4 with h4 | h4
      · exact h4.elim
      · exact ⟨hd, ⟨⟨⟨h1, h2⟩, h3⟩, h4⟩⟩

/- ### C2: the month-end grouper zero-fills gap months -/

/-- **C2 (counterexample).** On a dataset with records in January and March
2025 only, the monthly series produced by the month-end grouper contains an
entry for February 2025 (month key `2025*12 + 2 = 24302`) even though no
record occurs in that month: gap months are zero-filled, not omitted. -/
theorem monthlySeries_gap_month_cex :
    (24302, 0) ∈ monthlySeries gapRows ∧ countInMonth gapRows 24302 = 0 ∧
      monthlySeries gapRows = [(24301, 1), (24302, 0), (24303, 1)] := by
  decide

/-- **C2 (amended).** For a non-empty filtered dataset, the monthly series
contains exactly one entry for every calendar month between the earliest
and latest observed months inclusive, each carrying that month's record
count — months with zero records in that span appear with count 0
(zero-filled), rather than being omitted.  On an empty dataset the series
is empty. -/
theorem mem_monthlySeries_iff (rows : List Record) (hne : rows ≠ []) (p : Nat × Nat) :
    p ∈ monthlySeries rows ↔
      minMonth rows ≤ p.1 ∧ p.1 ≤ maxMonth rows ∧ p.2 = countInMonth rows p.1 := by
  have hm : monthIdxs rows ≠ [] := by
    simpa [monthIdxs] using hne
  cases hmi : monthIdxs rows with
  | nil => exact absurd hmi hm
  | cons x xs =>
    simp only [monthlySeries, hmi, List.mem_map, List.mem_range]
    constructor
    · rintro ⟨i, hi, rfl⟩
      exact ⟨Nat.le_add_right _ _, by omega, rfl⟩
    · rintro ⟨h1, h2, h3⟩
      refine ⟨p.1 - minMonth rows, by omega, ?_⟩
      have hp : minMonth rows + (p.1 - minMonth rows) = p.1 := by omega
      rw [hp, ← h3]

/-- Witness for `mem_monthlySeries_iff` at the concrete gap dataset and the
zero-filled February entry. -/
theorem mem_monthlySeries_iff_witness :
    (24302, 0) ∈ monthlySeries gapRows :=
  (mem_monthlySeries_iff gapRows (by decide) (24302, 0)).2 (by decide)

/- ### C6: aggregation is defined and all-empty on an empty filtered set -/

/-- **C6.** Whenever filtering leaves no records, the aggregation step is
still defined and yields total count 0, zero distinct categories, zero
distinct districts, and empty monthly series, category breakdown and
district breakdown. -/
theorem aggregate_filter_empty (d : List Record) (c : Criteria)
    (h : filterData d c = []) :
    aggregate (filterData d c) =
      { total_count := 0, distinct_category_count := 0,
        distinct_district_count := 0, monthly := [],
        byCategory := [], byDistrict := [] } := by
  rw [h]
  rfl

/-- Witness for `aggregate_filter_empty` on a concrete dataset and criteria
whose filtered set is empty (no district selected). -/
theorem aggregate_filter_empty_witness :
    aggregate (filterData [⟨⟨2025, 2, 3⟩, "Theft", "Harare", 0, 0⟩]
        ⟨⟨2025, 1, 1⟩, ⟨2025, 12, 31⟩, "All", []⟩) =
      { total_count := 0, distinct_category_count := 0,
        distinct_district_count := 0, monthly := [],
        byCategory := [], byDistrict := [] } :=
  aggregate_filter_empty _ _ (by decide)

/- ### C7: monthly series keys are strictly increasing -/

/-- **C7.** The month keys of the monthly series are strictly increasing:
the series is chronological and no calendar month appears twice. -/
theorem monthlySeries_keys_strictly_increasing (rows : List Record) :
    ((monthlySeries rows).map Prod.fst).Pairwise (· < ·) := by
  cases hmi : monthIdxs rows with
  | nil => simp [monthlySeries, hmi]
  | cons x xs =>
    simp only [monthlySeries, hmi, List.map_map]
    have hc : (Prod.fst ∘ fun i =>
        (minMonth rows + i, countInMonth rows (minMonth rows + i)))
        = fun i => minMonth rows + i := rfl
    rw [hc]
    exact (List.pairwise_lt_range _).map _
      (fun a b h => Nat.add_lt_add_left h _)

/- ### C10: a failed upload parse falls back to the default load -/

/-- **C10.** When an uploaded file is supplied but reading it fails,
`upload_csv` returns `none` (after reporting the error), and the session's
dataframe is then obtained from `load_data` on the fixed default path —
exactly the choice made when no upload is supplied at all. -/
theorem upload_parse_error_falls_back {α : Type}
    (read_csv : α → Except String (List Record))
    (read_path : String → Except String (List Record)) (f : α) (e : String)
    (h : read_csv f = Except.error e) :
    upload_csv read_csv (some f) = none ∧
      sessionData read_csv read_path (some f) = load_data read_path ∧
      sessionData read_csv read_path (some f) =
        sessionData read_csv read_path none := by
  have h1 : upload_csv read_csv (some f) = none := by
    simp [upload_csv, h]
  refine ⟨h1, ?_, ?_⟩
  · unfold sessionData
    rw [h1]
  · unfold sessionData
    rw [h1]
    rfl

/-- Witness for `upload_parse_error_falls_back` with a concrete reader that
always fails on the uploaded file and a default path holding an empty
dataset. -/
theorem upload_parse_error_falls_back_witness :
    upload_csv (fun _ : Unit => (Except.error "bad CSV" : Except String (List Record)))
        (some ()) = none ∧
      sessionData (fun _ : Unit => (Except.error "bad CSV" : Except String (List Record)))
          (fun _ => Except.ok []) (some ()) =
        load_data (fun _ => Except.ok []) ∧
      sessionData (fun _ : Unit => (Except.error "bad CSV" : Except String (List Record)))
          (fun _ => Except.ok []) (some ()) =
        sessionData (fun _ : Unit => (Except.error "bad CSV" : Except String (List Record)))
          (fun _ => Except.ok []) none :=
  upload_parse_error_falls_back _ _ () "bad CSV" rfl

/- ### C5: fewer than two distinct months means no forecast -/

/-- **C5.** If the selected district's records fall in fewer than two
distinct calendar months, the forecast is the defined `unavailable` state
(no prediction is produced, and no error is raised: `forecast` is total). -/
theorem forecast_unavailable_of_lt_two_months (d : List Record) (dist : String)
    (h : (monthIdxs (districtRows d dist)).dedup.length < 2) :
    forecast d dist = ForecastResult.unavailable := by
  have hlen : ¬ 1 < (histSeries d dist).length := by
    cases hmi : monthIdxs (districtRows d dist) with
    | nil =>
      simp [histSeries, monthlySeries, hmi]
    | cons x xs =>
      have hx : x ∈ (monthIdxs (districtRows d dist)).dedup := by
        rw [hmi]; exact List.mem_dedup.2 (List.mem_cons_self x xs)
      have hall : ∀ a ∈ xs, a = x := by
        intro a ha
        have hadx : a ∈ (monthIdxs (districtRows d dist)).dedup := by
          rw [hmi]; exact List.mem_dedup.2 (List.mem_cons_of_mem x ha)
        rcases hd : (monthIdxs (districtRows d dist)).dedup with _ | ⟨m, _ | ⟨m2, rest⟩⟩
        · rw [hd] at hx; cases hx
        · rw [hd] at hx hadx
          have h1 : a = m := by simpa using hadx
          have h2 : x = m := by simpa using hx
          rw [h1, h2]
        · rw [hd] at h; simp at h; omega
      have hmin : minMonth (districtRows d dist) = x := by
        simp only [minMonth, hmi]
        exact le_antisymm (foldl_min_le_init xs x)
          (le_foldl_min xs x x le_rfl (fun a ha => (hall a ha).symm.le))
      have hmax : maxMonth (districtRows d dist) = x := by
        simp only [maxMonth, hmi]
        exact le_antisymm
          (foldl_max_le xs x x le_rfl (fun a ha => (hall a ha).le))
          (le_foldl_max_init xs x)
      simp [histSeries, monthlySeries, hmi, hmin, hmax]
  unfold forecast
  rw [if_neg hlen]

/-- Witness for `forecast_unavailable_of_lt_two_months` on a one-record
dataset: a single month of data yields no forecast. -/
theorem forecast_unavailable_of_lt_two_months_witness :
    (monthIdxs (districtRows [⟨⟨2025, 1, 1⟩, "Theft", "Harare", 0, 0⟩]
        "Harare")).dedup.length < 2 ∧
      forecast [⟨⟨2025, 1, 1⟩, "Theft", "Harare", 0, 0⟩] "Harare" =
        ForecastResult.unavailable :=
  ⟨by decide, forecast_unavailable_of_lt_two_months _ _ (by decide)⟩

/- ### C9: the three groupings each partition the filtered set -/

theorem countInMonth_eq_count (rows : List Record) (m : Nat) :
    countInMonth rows m = (monthIdxs rows).count m := by
  simp only [countInMonth, monthIdxs, List.count, ← List.countP_eq_length_filter,
    List.countP_map]
  rfl

theorem sum_count_range (l : List Nat) (lo n : Nat)
    (h : ∀ a ∈ l, lo ≤ a ∧ a < lo + n) :
    (∑ i in Finset.range n, l.count (lo + i)) = l.length := by
  induction l with
  | nil => simp
  | cons a as ih =>
    have ha := h a (List.mem_cons_self a as)
    have ih' := ih (fun b hb => h b (List.mem_cons_of_mem a hb))
    simp only [List.count_cons, List.length_cons]
    rw [Finset.sum_add_distrib, ih']
    have hone : (∑ i in Finset.range n, if a == lo + i then 1 else 0) = 1 := by
      have hrw : ∀ i ∈ Finset.range n,
          ((if a == lo + i then 1 else 0) : Nat) = if i = a - lo then 1 else 0 := by
        intro i _
        by_cases hia : i = a - lo
        · subst hia
          have hal : lo + (a - lo) = a := by omega
          rw [hal]
          simp
        · have hal : ¬ ((a == lo + i) = true) := by
            simp only [beq_iff_eq]
            omega
          rw [if_neg hal, if_neg hia]
      rw [Finset.sum_congr rfl hrw, Finset.sum_ite_eq' (Finset.range n) (a - lo)]
      have hmem : a - lo ∈ Finset.range n := by
        rw [Finset.mem_range]; omega
      simp [hmem]
    omega

theorem categoryBreakdown_sum (rows : List Record) :
    ((categoryBreakdown rows).map Prod.snd).sum = rows.length := by
  unfold categoryBreakdown
  rw [List.map_map]
  have hc : (Prod.snd ∘ fun c => (c, (rows.map Record.crime_type).count c))
      = fun c => (rows.map Record.crime_type).count c := rfl
  rw [hc, List.sum_map_count_dedup_eq_length, List.length_map]

theorem districtBreakdown_sum (rows : List Record) :
    ((districtBreakdown rows).map Prod.snd).sum = rows.length := by
  unfold districtBreakdown
  rw [List.map_map]
  have hc : (Prod.snd ∘ fun c => (c, (rows.map Record.district).count c))
      = fun c => (rows.map Record.district).count c := rfl
  rw [hc, List.sum_map_count_dedup_eq_length, List.length_map]

theorem monthlySeries_sum (rows : List Record) :
    ((monthlySeries rows).map Prod.snd).sum = rows.length := by
  cases hmi : monthIdxs rows with
  | nil =>
    have hr : rows = [] := by
      cases rows with
      | nil => rfl
      | cons r rs => simp [monthIdxs] at hmi
    simp [hr, monthlySeries, monthIdxs]
  | cons x xs =>
    simp only [monthlySeries, hmi, List.map_map]
    have hc : (Prod.snd ∘ fun i =>
        (minMonth rows + i, countInMonth rows (minMonth rows + i)))
        = fun i => (monthIdxs rows).count (minMonth rows + i) := by
      funext i
      exact countInMonth_eq_count rows _
    rw [hc]
    have hb : ((List.range (maxMonth rows + 1 - minMonth rows)).map
        (fun i => (monthIdxs rows).count (minMonth rows + i))).sum
        = ∑ i in Finset.range (maxMonth rows + 1 - minMonth rows),
            (monthIdxs rows).count (minMonth rows + i) := rfl
    rw [hb, sum_count_range]
    · simp [monthIdxs]
    · intro a ha
      have h1 := minMonth_le_of_mem rows a ha
      have h2 := le_maxMonth_of_mem rows a ha
      omega

/-- **C9.** The aggregate result is internally consistent: the total count
equals the sum of the monthly series counts, the sum of the category
breakdown counts, and the sum of the district breakdown counts — each
record is counted exactly once by each grouping. -/
theorem aggregate_breakdown_sums (rows : List Record) :
    ((aggregate rows).monthly.map Prod.snd).sum = (aggregate rows).total_count ∧
      ((aggregate rows).byCategory.map Prod.snd).sum = (aggregate rows).total_count ∧
      ((aggregate rows).byDistrict.map Prod.snd).sum = (aggregate rows).total_count :=
  ⟨monthlySeries_sum rows, categoryBreakdown_sum rows, districtBreakdown_sum rows⟩

/- ### C3: the forecast anchors at the dataset-global next month -/

/-- **C3.** Whenever a prediction is produced, it is the fitted line
evaluated at `nm`, the month index one past the latest date of the
*entire* dataset.  On the concrete split dataset, district `"A"`'s own
data stops in February (its own next month `2025*12+3` would give 3), yet
the forecast evaluates at the global next month `2025*12+5` (April, the
dataset-wide latest month, plus one) and yields 5. -/
theorem forecast_uses_global_next_month :
    (∀ (d : List Record) (dist : String), 1 < (histSeries d dist).length →
      forecast d dist = ForecastResult.predicted
        (olsPredict (histSeries d dist) ((nextMonth d : Nat) : Rat))) ∧
      nextMonth splitAnchorRows = 2025 * 12 + 5 ∧
      forecast splitAnchorRows "A" = ForecastResult.predicted 5 ∧
      olsPredict (histSeries splitAnchorRows "A") ((2025 * 12 + 3 : Nat) : Rat) = 3 := by
  have hh : histSeries splitAnchorRows "A" = [(24301, 1), (24302, 2)] := by decide
  have hn : nextMonth splitAnchorRows = 24305 := by decide
  refine ⟨?_, by decide, ?_, ?_⟩
  · intro d dist h
    unfold forecast
    rw [if_pos h]
  · unfold forecast
    rw [hh, hn]
    norm_num [olsPredict, olsIntercept, olsSlope]
  · rw [hh]
    norm_num [olsPredict, olsIntercept, olsSlope]

/-- Witness for `forecast_uses_global_next_month` at the concrete split
dataset. -/
theorem forecast_uses_global_next_month_witness :
    forecast splitAnchorRows "A" = ForecastResult.predicted
      (olsPredict (histSeries splitAnchorRows "A")
        ((nextMonth splitAnchorRows : Nat) : Rat)) :=
  forecast_uses_global_next_month.1 splitAnchorRows "A" (by decide)

/- ### C4: a perfectly linear monthly trend extrapolates exactly -/

theorem olsSlope_arith3 (m c s : Nat) :
    olsSlope [(m, c), (m + 1, c + s), (m + 2, c + 2 * s)] = (s : Rat) := by
  unfold olsSlope
  simp only [List.map_cons, List.map_nil, List.sum_cons, List.sum_nil,
    List.length_cons, List.length_nil]
  push_cast
  rw [div_eq_iff]
  · ring
  · intro h
    ring_nf at h
    norm_num at h

theorem olsIntercept_arith3 (m c s : Nat) :
    olsIntercept [(m, c), (m + 1, c + s), (m + 2, c + 2 * s)]
      = (c : Rat) - (s : Rat) * (m : Rat) := by
  unfold olsIntercept
  rw [olsSlope_arith3]
  simp only [List.map_cons, List.map_nil, List.sum_cons, List.sum_nil,
    List.length_cons, List.length_nil]
  push_cast
  ring

theorem olsPredict_arith3 (m c s : Nat) :
    olsPredict [(m, c), (m + 1, c + s), (m + 2, c + 2 * s)] ((m + 3 : Nat) : Rat)
      = (c : Rat) + 3 * (s : Rat) := by
  unfold olsPredict
  rw [olsSlope_arith3, olsIntercept_arith3]
  push_cast
  ring

theorem foldl_min_replicate (n x b : Nat) :
    (List.replicate n b).foldl min x = if n = 0 then x else min x b := by
  induction n generalizing x with
  | zero => simp
  | succ k ih =>
    simp only [List.replicate_succ, List.foldl_cons, ih (min x b)]
    by_cases hk : k = 0
    · simp [hk]
    · simp [hk, min_assoc]

theorem foldl_max_replicate (n x b : Nat) :
    (List.replicate n b).foldl max x = if n = 0 then x else max x b := by
  induction n generalizing x with
  | zero => simp
  | succ k ih =>
    simp only [List.replicate_succ, List.foldl_cons, ih (max x b)]
    by_cases hk : k = 0
    · simp [hk]
    · simp [hk, max_assoc]

theorem foldl_maxDate_replicate (n : Nat) (x : Date) (r : Record) :
    (List.replicate n r).foldl (fun a b => if dateLe a b.date then b.date else a) x
      = if n = 0 then x else if dateLe x r.date then r.date else x := by
  induction n generalizing x with
  | zero => simp
  | succ k ih =>
    simp only [List.replicate_succ, List.foldl_cons, ih]
    by_cases hx : dateLe x r.date = true
    · simp [hx, dateLe_refl]
    · simp [hx]

theorem districtRows_linRows (y a b : Nat) :
    districtRows (linRows y a b) "Harare" = linRows y a b := by
  simp [districtRows, linRows, List.filter_append, List.filter_replicate]

theorem monthIdxs_linRows (y a b : Nat) :
    monthIdxs (linRows y a b) =
      List.replicate a (y * 12 + 1) ++ List.replicate (a + b) (y * 12 + 2) ++
        List.replicate (a + 2 * b) (y * 12 + 3) := by
  simp [monthIdxs, linRows, List.map_append, List.map_replicate, monthIndex]

theorem minMonth_linRows (y a' b : Nat) :
    minMonth (linRows y (a' + 1) b) = y * 12 + 1 := by
  have hB : monthIdxs (linRows y (a' + 1) b) =
      (y * 12 + 1) :: (List.replicate a' (y * 12 + 1) ++
        (List.replicate (a' + 1 + b) (y * 12 + 2) ++
          List.replicate (a' + 1 + 2 * b) (y * 12 + 3))) := by
    rw [monthIdxs_linRows]
    simp [List.replicate_succ]
  simp only [minMonth, hB, List.foldl_append, foldl_min_replicate]
  have h1 : a' + 1 + b ≠ 0 := by omega
  have h2 : a' + 1 + 2 * b ≠ 0 := by omega
  by_cases ha : a' = 0 <;>
    simp [ha, h1, h2, min_self, Nat.min_eq_left, Nat.le_succ, min_eq_left]

theorem maxMonth_linRows (y a' b : Nat) :
    maxMonth (linRows y (a' + 1) b) = y * 12 + 3 := by
  have hB : monthIdxs (linRows y (a' + 1) b) =
      (y * 12 + 1) :: (List.replicate a' (y * 12 + 1) ++
        (List.replicate (a' + 1 + b) (y * 12 + 2) ++
          List.replicate (a' + 1 + 2 * b) (y * 12 + 3))) := by
    rw [monthIdxs_linRows]
    simp [List.replicate_succ]
  simp only [maxMonth, hB, List.foldl_append, foldl_max_replicate]
  have h1 : a' + 1 + b ≠ 0 := by omega
  have h2 : a' + 1 + 2 * b ≠ 0 := by omega
  by_cases ha : a' = 0 <;>
    simp [ha, h1, h2, max_self, max_eq_right]

theorem countInMonth_linRows (y a b m : Nat) :
    countInMonth (linRows y a b) m =
      (if y * 12 + 1 == m then a else 0) + (if y * 12 + 2 == m then a + b else 0) +
        (if y * 12 + 3 == m then a + 2 * b else 0) := by
  simp only [countInMonth, linRows, List.filter_append, List.filter_replicate,
    List.length_append, monthIndex]
  by_cases e1 : (y * 12 + 1 == m) = true <;> by_cases e2 : (y * 12 + 2 == m) = true <;>
    by_cases e3 : (y * 12 + 3 == m) = true <;>
    simp [e1, e2, e3]

theorem monthlySeries_linRows (y a' b : Nat) :
    monthlySeries (linRows y (a' + 1) b) =
      [(y * 12 + 1, a' + 1), (y * 12 + 2, a' + 1 + b), (y * 12 + 3, a' + 1 + 2 * b)] := by
  have hB : monthIdxs (linRows y (a' + 1) b) =
      (y * 12 + 1) :: (List.replicate a' (y * 12 + 1) ++
        (List.replicate (a' + 1 + b) (y * 12 + 2) ++
          List.replicate (a' + 1 + 2 * b) (y * 12 + 3))) := by
    rw [monthIdxs_linRows]
    simp [List.replicate_succ]
  have hr3 : y * 12 + 3 + 1 - (y * 12 + 1) = 3 := by omega
  simp only [monthlySeries, hB, minMonth_linRows, maxMonth_linRows, hr3]
  have hrange : List.range 3 = [0, 1, 2] := rfl
  rw [hrange]
  simp only [List.map_cons, List.map_nil, countInMonth_linRows]
  norm_num

theorem maxDate_linRows (y a' b : Nat) :
    maxDate (linRows y (a' + 1) b) = ⟨y, 3, 1⟩ := by
  have hD : linRows y (a' + 1) b =
      (⟨⟨y, 1, 1⟩, "Theft", "Harare", 0, 0⟩ : Record) ::
        (List.replicate a' ⟨⟨y, 1, 1⟩, "Theft", "Harare", 0, 0⟩ ++
          (List.replicate (a' + 1 + b) ⟨⟨y, 2, 1⟩, "Theft", "Harare", 0, 0⟩ ++
            List.replicate (a' + 1 + 2 * b) ⟨⟨y, 3, 1⟩, "Theft", "Harare", 0, 0⟩)) := by
    simp [linRows, List.replicate_succ]
  simp only [maxDate, hD, List.foldl_append, foldl_maxDate_replicate]
  have h1 : a' + 1 + b ≠ 0 := by omega
  have h2 : a' + 1 + 2 * b ≠ 0 := by omega
  have d12 : dateLe ⟨y, 1, 1⟩ ⟨y, 2, 1⟩ = true := by simp [dateLe]
  have d13 : dateLe ⟨y, 1, 1⟩ ⟨y, 3, 1⟩ = true := by simp [dateLe]
  have d23 : dateLe ⟨y, 2, 1⟩ ⟨y, 3, 1⟩ = true := by simp [dateLe]
  by_cases ha : a' = 0 <;> simp [ha, h1, h2, dateLe_refl, d12, d13, d23]

/-- **C4.** On a dataset whose records for district `"Harare"` form a
perfectly linear monthly count sequence `a`, `a+b`, `a+2b` over three
consecutive months (the third being the latest month of the whole dataset),
the forecast is the least-squares line extrapolated one month further:
`a + 3b`.  In particular counts 10, 20, 30 predict exactly 40. -/
theorem forecast_linear_trend (y a b : Nat) (ha : 1 ≤ a) :
    forecast (linRows y a b) "Harare" =
      ForecastResult.predicted ((a : Rat) + 3 * (b : Rat)) := by
  obtain ⟨a', rfl⟩ : ∃ k, a = k + 1 := ⟨a - 1, by omega⟩
  have hh : histSeries (linRows y (a' + 1) b) "Harare" =
      [(y * 12 + 1, a' + 1), (y * 12 + 2, a' + 1 + b), (y * 12 + 3, a' + 1 + 2 * b)] := by
    rw [histSeries, districtRows_linRows, monthlySeries_linRows]
  have hn : nextMonth (linRows y (a' + 1) b) = y * 12 + 3 + 1 := by
    rw [nextMonth, maxDate_linRows]
    rfl
  have hlist : [(y * 12 + 1, a' + 1), (y * 12 + 2, a' + 1 + b), (y * 12 + 3, a' + 1 + 2 * b)]
      = [(y * 12 + 1, a' + 1), (y * 12 + 1 + 1, (a' + 1) + b),
          (y * 12 + 1 + 2, (a' + 1) + 2 * b)] := by
    norm_num
  have hx : ((y * 12 + 3 + 1 : Nat) : Rat) = ((y * 12 + 1 + 3 : Nat) : Rat) := by
    push_cast
    ring
  unfold forecast
  rw [hh, hn]
  rw [if_pos (by norm_num)]
  rw [hlist, hx, olsPredict_arith3]

/-- Witness for `forecast_linear_trend`: counts 10, 20, 30 in the first
three months of 2025 forecast exactly 40 for the fourth. -/
theorem forecast_linear_trend_witness :
    forecast (linRows 2025 10 10) "Harare" = ForecastResult.predicted 40 := by
  have h := forecast_linear_trend 2025 10 10 (by norm_num)
  norm_num at h
  exact h

/- ### C8: generator output respects its configuration and loads cleanly -/

theorem roundHalfEven_ge (t : Rat) (n : Int) (h : (n : Rat) ≤ t) :
    n ≤ roundHalfEven t := by
  unfold roundHalfEven
  dsimp only
  have hfn : n ≤ ⌊t⌋ := Int.le_floor.2 h
  split_ifs <;> omega

theorem roundHalfEven_le (t : Rat) (n : Int) (h : t ≤ (n : Rat)) :
    roundHalfEven t ≤ n := by
  unfold roundHalfEven
  dsimp only
  have hf : (⌊t⌋ : Rat) ≤ t := Int.floor_le t
  have hfn : ⌊t⌋ ≤ n := by
    have hmono := Int.floor_le_floor (α := Rat) h
    rwa [Int.floor_intCast] at hmono
  split_ifs with h1 h2 h3
  · exact hfn
  · have hlt : (⌊t⌋ : Rat) < (n : Rat) := by
      push_neg at h1
      linarith
    have : ⌊t⌋ < n := by exact_mod_cast hlt
    omega
  · exact hfn
  · have heq : t - (⌊t⌋ : Rat) = 1 / 2 := le_antisymm (not_lt.1 h2) (not_lt.1 h1)
    have hlt : (⌊t⌋ : Rat) < (n : Rat) := by linarith
    have : ⌊t⌋ < n := by exact_mod_cast hlt
    omega

theorem npRound6_bounds (x : Rat) (a b : Int)
    (h1 : (a : Rat) / 1000000 ≤ x) (h2 : x ≤ (b : Rat) / 1000000) :
    (a : Rat) / 1000000 ≤ npRound6 x ∧ npRound6 x ≤ (b : Rat) / 1000000 := by
  have ha : (a : Rat) ≤ x * 1000000 := by
    rw [div_le_iff₀ (by norm_num : (0:Rat) < 1000000)] at h1
    exact h1
  have hb : x * 1000000 ≤ (b : Rat) := by
    rw [le_div_iff₀ (by norm_num : (0:Rat) < 1000000)] at h2
    exact h2
  have hg := roundHalfEven_ge (x * 1000000) a ha
  have hl := roundHalfEven_le (x * 1000000) b hb
  constructor
  · unfold npRound6
    apply div_le_div_of_nonneg_right ?_ ?_ |>.trans_eq rfl
    all_goals first
      | exact_mod_cast hg
      | norm_num
  · unfold npRound6
    apply div_le_div_of_nonneg_right ?_ ?_ |>.trans_eq rfl
    all_goals first
      | exact_mod_cast hl
      | norm_num

theorem deltaDays_eq : deltaDays = 139 := by decide

theorem random_date_in_range : ((List.range 140).all fun k =>
    dateLe START_DATE (random_date k) && dateLe (random_date k) END_DATE) = true := by
  decide

theorem strftime_parse_round_trip : ((List.range 140).all fun k =>
    parseDateYMD (strftimeYMD (random_date k)) == some (random_date k)) = true := by
  decide

theorem parseRow_genRow (w : Draws) (hk : w.dayOffset ≤ deltaDays) :
    parseRow (genRow w) = some (genRecord w) := by
  have hk' : w.dayOffset < 140 := by
    have := deltaDays_eq
    omega
  have hrt := List.all_eq_true.1 strftime_parse_round_trip _ (List.mem_range.2 hk')
  rw [beq_iff_eq] at hrt
  unfold parseRow genRow
  dsimp only
  rw [hrt]
  rfl

theorem readCsvRows_gen (ws : List Draws) (hk : ∀ w ∈ ws, w.dayOffset ≤ deltaDays) :
    readCsvRows (ws.map genRow) = some (ws.map genRecord) := by
  induction ws with
  | nil => rfl
  | cons w rest ih =>
    have hw := hk w (List.mem_cons_self w rest)
    have hr := parseRow_genRow w hw
    have ih' := ih (fun v hv => hk v (List.mem_cons_of_mem w hv))
    simp only [readCsvRows, List.map_cons, List.mapM_cons, hr]
    simp only [readCsvRows] at ih'
    rw [ih']
    rfl

theorem genRecord_bounds (w : Draws) (hk : w.dayOffset ≤ deltaDays)
    (hlat1 : LAT_MIN ≤ w.latRaw) (hlat2 : w.latRaw ≤ LAT_MAX)
    (hlon1 : LON_MIN ≤ w.lonRaw) (hlon2 : w.lonRaw ≤ LON_MAX) :
    dateLe START_DATE (genRecord w).date = true ∧
      dateLe (genRecord w).date END_DATE = true ∧
      LAT_MIN ≤ (genRecord w).latitude ∧ (genRecord w).latitude ≤ LAT_MAX ∧
      LON_MIN ≤ (genRecord w).longitude ∧ (genRecord w).longitude ≤ LON_MAX := by
  have hk' : w.dayOffset < 140 := by
    have := deltaDays_eq
    omega
  have hd := List.all_eq_true.1 random_date_in_range _ (List.mem_range.2 hk')
  rw [Bool.and_eq_true] at hd
  have hlata : ((-22000000 : Int) : Rat) / 1000000 ≤ w.latRaw := by
    have he : ((-22000000 : Int) : Rat) / 1000000 = LAT_MIN := by
      norm_num [LAT_MIN]
    rw [he]
    exact hlat1
  have hlatb : w.latRaw ≤ ((-15000000 : Int) : Rat) / 1000000 := by
    have he : ((-15000000 : Int) : Rat) / 1000000 = LAT_MAX := by
      norm_num [LAT_MAX]
    rw [he]
    exact hlat2
  have hlona : ((25000000 : Int) : Rat) / 1000000 ≤ w.lonRaw := by
    have he : ((25000000 : Int) : Rat) / 1000000 = LON_MIN := by
      norm_num [LON_MIN]
    rw [he]
    exact hlon1
  have hlonb : w.lonRaw ≤ ((34000000 : Int) : Rat) / 1000000 := by
    have he : ((34000000 : Int) : Rat) / 1000000 = LON_MAX := by
      norm_num [LON_MAX]
    rw [he]
    exact hlon2
  have hlat := npRound6_bounds w.latRaw (-22000000) (-15000000) hlata hlatb
  have hlon := npRound6_bounds w.lonRaw 25000000 34000000 hlona hlonb
  refine ⟨hd.1, hd.2, ?_, ?_, ?_, ?_⟩
  · have he : ((-22000000 : Int) : Rat) / 1000000 = LAT_MIN := by norm_num [LAT_MIN]
    rw [← he]
    exact hlat.1
  · have he : ((-15000000 : Int) : Rat) / 1000000 = LAT_MAX := by norm_num [LAT_MAX]
    rw [← he]
    exact hlat.2
  · have he : ((25000000 : Int) : Rat) / 1000000 = LON_MIN := by norm_num [LON_MIN]
    rw [← he]
    exact hlon.1
  · have he : ((34000000 : Int) : Rat) / 1000000 = LON_MAX := by norm_num [LON_MAX]
    rw [← he]
    exact hlon.2

/-- **C8.** Every record the generator emits (for draws within the
documented ranges of `np.random.randint(0, delta.days+1)` and
`np.random.uniform`) has its date within `[START_DATE, END_DATE]`
inclusive, its rounded latitude within `[LAT_MIN, LAT_MAX]`, and its
rounded longitude within `[LON_MIN, LON_MAX]`; moreover every generated
CSV row carries all five columns and the loader parses the whole generated
table with zero rows dropped, recovering exactly the generated records. -/
theorem generator_round_trip (ws : List Draws)
    (hk : ∀ w ∈ ws, w.dayOffset ≤ deltaDays)
    (hlat : ∀ w ∈ ws, LAT_MIN ≤ w.latRaw ∧ w.latRaw ≤ LAT_MAX)
    (hlon : ∀ w ∈ ws, LON_MIN ≤ w.lonRaw ∧ w.lonRaw ≤ LON_MAX) :
    (∀ w ∈ ws, dateLe START_DATE (genRecord w).date = true ∧
        dateLe (genRecord w).date END_DATE = true ∧
        LAT_MIN ≤ (genRecord w).latitude ∧ (genRecord w).latitude ≤ LAT_MAX ∧
        LON_MIN ≤ (genRecord w).longitude ∧ (genRecord w).longitude ≤ LON_MAX) ∧
      readCsvRows (ws.map genRow) = some (ws.map genRecord) := by
  refine ⟨?_, readCsvRows_gen ws hk⟩
  intro w hw
  exact genRecord_bounds w (hk w hw) (hlat w hw).1 (hlat w hw).2
    (hlon w hw).1 (hlon w hw).2

/-- Witness for `generator_round_trip` at a concrete single draw. -/
theorem generator_round_trip_witness :
    (∀ w ∈ [(⟨0, 0, 0, -22, 25⟩ : Draws)],
        dateLe START_DATE (genRecord w).date = true ∧
        dateLe (genRecord w).date END_DATE = true ∧
        LAT_MIN ≤ (genRecord w).latitude ∧ (genRecord w).latitude ≤ LAT_MAX ∧
        LON_MIN ≤ (genRecord w).longitude ∧ (genRecord w).longitude ≤ LON_MAX) ∧
      readCsvRows ([(⟨0, 0, 0, -22, 25⟩ : Draws)].map genRow) =
        some ([(⟨0, 0, 0, -22, 25⟩ : Draws)].map genRecord) :=
  generator_round_trip [⟨0, 0, 0, -22, 25⟩] (by decide)
    (by intro w hw; simp only [List.mem_singleton] at hw; subst hw
        constructor <;> norm_num [LAT_MIN, LAT_MAX])
    (by intro w hw; simp only [List.mem_singleton] at hw; subst hw
        constructor <;> norm_num [LON_MIN, LON_MAX])
